import Mathlib

/-!
Verification development for the pixiv-dl downloader pipeline
(`src/pixiv_dl/downloader.py`).

The definitions below are a shallow embedding of the `Downloader` class:

* `filter_illust` embeds `Downloader.filter_illust` (the item filter chain);
* `retry_wrapper` embeds `Downloader.retry_wrapper` (the 3-attempt retry gate);
* `depaginate_download` embeds `Downloader.depaginate_download` (the cursor
  paginator with its `range(0, 9999)` iteration ceiling);
* `download_page` embeds `Downloader.download_page` (one download unit of the
  worker pool), instrumented with an event log recording every filesystem and
  network effect in program order;
* `make_downloadable` embeds `Downloader.make_downloadable`.

Python dicts for illustrations are embedded as the `Illust` structure, keeping
exactly the keys the embedded code reads.  Machine strings are Lean `String`s;
`str.lower` is embedded as a per-character ASCII lowercase map (`strLower`),
which agrees with Python on the tag names used here.
-/

/-- Lowercase map over the characters of a string, embedding Python's
`str.lower()` as used in `filter_illust` (ASCII case mapping). -/
def strLower (s : String) : String := ⟨s.data.map Char.toLower⟩

/-- One entry of an illustration's `tags` list: a dict with keys `name` and
`translated_name` (the latter may be `None`). -/
structure TagD where
  name : String
  translated_name : Option String
deriving DecidableEq

/-- The fields of a pixiv illustration dict that the embedded code reads.
`user_id` stands for `illust["user"]["id"]`, `meta_single_page_url` for
`illust["meta_single_page"]["original_image_url"]`, and `meta_pages` for the
list of `page["image_urls"]["original"]` urls (empty for single-page items). -/
structure Illust where
  id : Nat
  user_id : Nat
  visible : Bool
  x_restrict : Nat
  sanity_level : Nat
  total_bookmarks : Nat
  tags : List TagD
  page_count : Nat
  meta_single_page_url : String
  meta_pages : List String
deriving DecidableEq

/-- The filtering state of a `Downloader` instance: the behaviour parameters
from `__init__` plus the mutable `should_filter` flag. `lewd_min`/`lewd_max`
are `lewd_limits[0]`/`lewd_limits[1]`, `bm_min`/`bm_max` are
`bookmark_limits[0]`/`bookmark_limits[1]`. -/
structure FilterPolicy where
  allow_r18 : Bool
  lewd_min : Option Nat
  lewd_max : Option Nat
  filtered_tags : List String
  required_tags : List String
  bm_min : Option Nat
  bm_max : Option Nat
  max_pages : Option Nat
  should_filter : Bool
deriving DecidableEq

/-- A row of the `Blacklist` table (each column nullable). -/
structure BlacklistEntry where
  author_id : Option Nat
  artwork_id : Option Nat
  tag : Option String
deriving DecidableEq

/-- The truthy values of one tag dict, lowercased: embeds
`x.lower() for x in td.values() if x` (dict value order is `name`,
`translated_name`; `None` and the empty string are falsy). -/
def tagValues (td : TagD) : List String :=
  ((td.name :: (match td.translated_name with
      | some t => [t]
      | none => [])).filter (fun s => s != "")).map strLower

/-- The tag value set built at the top of `filter_illust`:
`tags.update(set(x.lower() for x in td.values() if x))` over all tag dicts.
Embedded as a deduplicated list. -/
def illustTagSet (il : Illust) : List String :=
  (il.tags.flatMap tagValues).dedup

/-- Rule 1 of the filter chain: `if not illust["visible"]`. -/
def rule_visible (il : Illust) : Option String :=
  if !il.visible then some "Illustration is not visible" else none

/-- Rule 2: `illust["x_restrict"] and not self.allow_r18`. -/
def rule_r18 (pol : FilterPolicy) (il : Illust) : Option String :=
  if il.x_restrict != 0 && !pol.allow_r18 then some "Illustration is R-18" else none

/-- Rule 3: `min_lewd is not None and lewd_level < min_lewd`. -/
def rule_lewd_min (pol : FilterPolicy) (il : Illust) : Option String :=
  match pol.lewd_min with
  | none => none
  | some m =>
    if il.sanity_level < m then
      some ("Illustration lewd level (" ++ toString il.sanity_level ++
        ") is below minimum level (" ++ toString m ++ ")")
    else none

/-- Rule 4: `max_lewd is not None and lewd_level > max_lewd`. -/
def rule_lewd_max (pol : FilterPolicy) (il : Illust) : Option String :=
  match pol.lewd_max with
  | none => none
  | some m =>
    if il.sanity_level > m then
      some ("Illustration lewd level (" ++ toString il.sanity_level ++
        ") is above maximum level (" ++ toString m ++ ")")
    else none

/-- Rule 5: `self.filtered_tags and filtered`, where
`filtered = tags.intersection(self.filtered_tags)`. -/
def rule_filtered (pol : FilterPolicy) (il : Illust) : Option String :=
  let filtered := (illustTagSet il).filter (fun t => pol.filtered_tags.contains t)
  if !pol.filtered_tags.isEmpty && !filtered.isEmpty then
    some ("Illustration contains filtered tags " ++ toString filtered)
  else none

/-- Rule 6: `self.required_tags and not required`, where
`required = tags.intersection(self.required_tags)`. -/
def rule_required (pol : FilterPolicy) (il : Illust) : Option String :=
  let required := (illustTagSet il).filter (fun t => pol.required_tags.contains t)
  if !pol.required_tags.isEmpty && required.isEmpty then
    some ("Illustration missing any of the required tags " ++ toString pol.required_tags)
  else none

/-- Rule 7: `max_bm is not None and bookmarks > max_bm`. -/
def rule_bm_max (pol : FilterPolicy) (il : Illust) : Option String :=
  match pol.bm_max with
  | none => none
  | some m =>
    if il.total_bookmarks > m then
      some ("Illustration has too many bookmarks (" ++ toString il.total_bookmarks ++
        " > " ++ toString m ++ ")")
    else none

/-- Rule 8: `min_bm is not None and bookmarks < min_bm`. The apostrophe of the
source message is spelled via its character code. -/
def rule_bm_min (pol : FilterPolicy) (il : Illust) : Option String :=
  match pol.bm_min with
  | none => none
  | some m =>
    if il.total_bookmarks < m then
      some ("Illustration doesn" ++ String.singleton (Char.ofNat 39) ++
        "t have enough bookmarks (" ++ toString il.total_bookmarks ++
        " < " ++ toString m ++ ")")
    else none

/-- Rule 9: `self.max_pages is not None and len(pages) > self.max_pages`,
where `pages = illust["meta_pages"]`. Note the source measures the length of
the `meta_pages` list, not the `page_count` field. -/
def rule_pages (pol : FilterPolicy) (il : Illust) : Option String :=
  match pol.max_pages with
  | none => none
  | some m =>
    if il.meta_pages.length > m then
      some ("Illustration has too many pages (" ++ toString il.meta_pages.length ++
        " > " ++ toString m ++ ")")
    else none

/-- The SQL predicate of the blacklist query:
`(author_id == user id) | (artwork_id == illust id) | (tag IN tags)`,
with SQL null semantics (a null column never matches). -/
def blacklistMatches (il : Illust) (e : BlacklistEntry) : Bool :=
  e.author_id == some il.user_id || e.artwork_id == some il.id ||
    (match e.tag with
     | some t => (illustTagSet il).contains t
     | none => false)

/-- Rendering of a blacklist row for the rejection message. -/
def entryStr (e : BlacklistEntry) : String :=
  "Blacklist row author_id=" ++ toString e.author_id ++
    " artwork_id=" ++ toString e.artwork_id ++ " tag=" ++ toString e.tag

/-- Rule 10: the blacklist lookup (`.first()` row matching the query). -/
def rule_blacklist (bl : List BlacklistEntry) (il : Illust) : Option String :=
  match bl.find? (fun e => blacklistMatches il e) with
  | some e => some ("Illustration is blacklisted (" ++ entryStr e ++ ")")
  | none => none

/-- Embedding of `Downloader.filter_illust`: the short-circuiting `elif` chain.
Returns `(msg is not None, msg)`. The blacklist table stands in for the
database session of the source. -/
def filter_illust (pol : FilterPolicy) (bl : List BlacklistEntry) (il : Illust) :
    Bool × Option String :=
  let msg : Option String :=
    rule_visible il <|>
      (if pol.should_filter then
        rule_r18 pol il <|> rule_lewd_min pol il <|> rule_lewd_max pol il <|>
          rule_filtered pol il <|> rule_required pol il <|> rule_bm_max pol il <|>
          rule_bm_min pol il <|> rule_pages pol il <|> rule_blacklist bl il
      else none)
  (msg.isSome, msg)

/-- The message of the k-th rule of the chain (1-based), for stating priority
properties about `filter_illust`. -/
def ruleMsg (k : Nat) (pol : FilterPolicy) (bl : List BlacklistEntry) (il : Illust) :
    Option String :=
  match k with
  | 1 => rule_visible il
  | 2 => rule_r18 pol il
  | 3 => rule_lewd_min pol il
  | 4 => rule_lewd_max pol il
  | 5 => rule_filtered pol il
  | 6 => rule_required pol il
  | 7 => rule_bm_max pol il
  | 8 => rule_bm_min pol il
  | 9 => rule_pages pol il
  | 10 => rule_blacklist bl il
  | _ => none

/-- An element of the list built by `Downloader.make_downloadable`. -/
structure DownloadableImage where
  id : Nat
  multi_page : Bool
  page_num : Nat
  url : String
deriving DecidableEq

/-- The `enumerate` loop of `make_downloadable`: one descriptor per entry of
`meta_pages`, with `page_num = idx + 1`. -/
def enumPages (id : Nat) : Nat → List String → List DownloadableImage
  | _, [] => []
  | idx, u :: rest => ⟨id, true, idx + 1, u⟩ :: enumPages id (idx + 1) rest

/-- Embedding of `Downloader.make_downloadable`. -/
def make_downloadable (il : Illust) : List DownloadableImage :=
  if il.page_count == 1 then
    [⟨il.id, false, 1, il.meta_single_page_url⟩]
  else
    enumPages il.id 0 il.meta_pages

/-- One invocation outcome of the zero-argument callable passed to
`retry_wrapper`: it either raises a `PixivError` (whose message may or may not
contain "connection aborted"), or returns `False`, `True`, a dict with an
`error` key (`invalid_grant` or some other message), or an ordinary result. -/
inductive CallOutcome (α : Type) where
  | raiseTransient
  | raiseOther
  | retFalse
  | retTrue
  | retErrorInvalidGrant
  | retErrorOther
  | retValue (v : α)
deriving DecidableEq

/-- How a `retry_wrapper` call ends: a returned result, the returned `True`
sentinel, or a raised exception carrying a message. -/
inductive RetryOutcome (α : Type) where
  | value (v : α)
  | boolTrue
  | error (msg : String)
deriving DecidableEq

/-- The retry loop of `Downloader.retry_wrapper`, from attempt index `x` with
the given number of remaining loop iterations (3 at the top level); the second
component counts invocations of the callable made from here on. A transient
`PixivError` and an `invalid_grant` error response both `continue` (the latter
after `self.aapi.auth()`); every other outcome leaves the loop at once. -/
def retryFrom (outcomes : Nat → CallOutcome α) (name : String) (x : Nat) :
    Nat → RetryOutcome α × Nat
  | 0 => (.error ("Failed to run " ++ name ++ " 3 times"), 0)
  | fuel + 1 =>
    match outcomes x with
    | .raiseTransient =>
      let r := retryFrom outcomes name (x + 1) fuel
      (r.1, r.2 + 1)
    | .raiseOther => (.error "PixivError", 1)
    | .retFalse => (.error "Error downloading?", 1)
    | .retTrue => (.boolTrue, 1)
    | .retErrorInvalidGrant =>
      let r := retryFrom outcomes name (x + 1) fuel
      (r.1, r.2 + 1)
    | .retErrorOther => (.error "Unknown error", 1)
    | .retValue v => (.value v, 1)

/-- Embedding of `Downloader.retry_wrapper`: `for x in range(0, 3)` with the
exhaustion `raise` of the `for`/`else` arm. `name` is the callable's rendering
in the exhaustion message; the callable itself is the `outcomes` sequence
(outcome of its k-th invocation, 0-based). -/
def retry_wrapper (outcomes : Nat → CallOutcome α) (name : String) :
    RetryOutcome α × Nat :=
  retryFrom outcomes name 0 3

/-- The cap test of `depaginate_download`:
`max_items is not None and len(to_process) >= max_items`. -/
def capReached (maxItems : Option Nat) (count : Nat) : Bool :=
  match maxItems with
  | none => false
  | some m => decide (m ≤ count)

/-- The `for x in range(0, 9999)` loop of `depaginate_download`. `fetch idx`
is the (retry-wrapped) listing response for the idx-th page of the cursor
chain: its item batch (`response[key_name]`) and whether `response["next_url"]`
is non-null. `acc` is `to_process`, `calls` counts listing calls; the last
argument is the remaining loop iterations (9999 at the top). -/
def depaginateLoop (fetch : Nat → List α × Bool) (maxItems : Option Nat)
    (idx : Nat) (acc : List α) (calls : Nat) : Nat → List α × Nat
  | 0 => (acc, calls)
  | fuel + 1 =>
    let step := fetch idx
    let acc2 := acc ++ step.1
    let calls2 := calls + 1
    if capReached maxItems acc2.length then (acc2, calls2)
    else if step.2 then depaginateLoop fetch maxItems (idx + 1) acc2 calls2 fuel
    else (acc2, calls2)

/-- Embedding of `Downloader.depaginate_download`: returns `to_process`
together with the number of listing calls issued. -/
def depaginate_download (fetch : Nat → List α × Bool) (maxItems : Option Nat) :
    List α × Nat :=
  depaginateLoop fetch maxItems 0 [] 0 9999

/-- The listing made of the given pages, ending with an end-of-stream signal:
page `i` carries batch `ps[i]` and has a non-null `next_url` exactly when a
page `i + 1` exists. -/
def fetchOf (ps : List (List α)) : Nat → List α × Bool :=
  fun i => (ps.getD i [], decide (i + 1 < ps.length))

/-- The on-disk mirror state seen by `download_page`: which item directories
exist under `raw/`, which items have a `marker.json`, and the downloaded page
files (item id, page number). -/
structure FS where
  dirs : List Nat
  markers : List Nat
  files : List (Nat × Nat)
deriving DecidableEq

/-- `output_dir.mkdir(parents=True, exist_ok=True)`. -/
def mkdirDirs (id : Nat) (dirs : List Nat) : List Nat :=
  if id ∈ dirs then dirs else dirs ++ [id]

/-- Effects of `download_page`, in program order: a `mkdir`, a successful page
fetch, a page fetch whose retries were exhausted (the raised exception), or a
`marker.json` write. -/
inductive Ev where
  | mkdir (id : Nat)
  | fetch (id page : Nat)
  | fetchFail (id page : Nat)
  | writeMarker (id : Nat)
deriving DecidableEq

/-- How the `for item in items` loop of `download_page` ends: it ran off the
end of the list, it hit the `return` of the marker short-circuit, or a fetch
raised (after retries) and the exception propagated. -/
inductive LoopRes where
  | completed
  | earlyReturn
  | failed
deriving DecidableEq

/-- Whether `download_page` returns normally or raises. -/
inductive DlOutcome where
  | ok
  | err
deriving DecidableEq

/-- The `for item in items` loop of `download_page`. `fetchOk id page` tells
whether the retry-wrapped `aapi.download` of that page succeeds. Returns the
loop result, the filesystem state, and the event log. -/
def dlLoop (fetchOk : Nat → Nat → Bool) (fs : FS) :
    List DownloadableImage → LoopRes × FS × List Ev
  | [] => (.completed, fs, [])
  | item :: rest =>
    let fs1 : FS := { fs with dirs := mkdirDirs item.id fs.dirs }
    if item.id ∈ fs1.markers then (.earlyReturn, fs1, [Ev.mkdir item.id])
    else if fetchOk item.id item.page_num then
      let fs2 : FS := { fs1 with files := fs1.files ++ [(item.id, item.page_num)] }
      let r := dlLoop fetchOk fs2 rest
      (r.1, r.2.1, Ev.mkdir item.id :: Ev.fetch item.id item.page_num :: r.2.2)
    else (.failed, fs1, [Ev.mkdir item.id, Ev.fetchFail item.id item.page_num])

/-- Embedding of `Downloader.download_page` on one download unit. After the
loop completes, the source writes `marker.json` for `items[0].id`; on an empty
unit that indexing raises `IndexError`, so no marker is written (`.err`). The
marker short-circuit `return` ends the call normally (`.ok`); a fetch failure
propagates the exception (`.err`). -/
def download_page (fetchOk : Nat → Nat → Bool) (fs : FS)
    (items : List DownloadableImage) : DlOutcome × FS × List Ev :=
  match dlLoop fetchOk fs items with
  | (.completed, fs1, log) =>
    match items with
    | [] => (.err, fs1, log)
    | i0 :: _ =>
      (.ok, { fs1 with markers := fs1.markers ++ [i0.id] }, log ++ [Ev.writeMarker i0.id])
  | (.earlyReturn, fs1, log) => (.ok, fs1, log)
  | (.failed, fs1, log) => (.err, fs1, log)

/-- Number of page-fetch attempts (successful or retry-exhausted) in a log. -/
def countFetches (log : List Ev) : Nat :=
  log.countP (fun e =>
    match e with
    | .fetch _ _ => true
    | .fetchFail _ _ => true
    | _ => false)

/-- Number of `marker.json` writes in a log. -/
def countMarkerWrites (log : List Ev) : Nat :=
  log.countP (fun e =>
    match e with
    | .writeMarker _ => true
    | _ => false)

/-- Item used in the C1 witness: violates the maturity-minimum rule (3) and
the bookmarks-above-max rule (7) at the same time. -/
def c1il : Illust :=
  ⟨10, 20, true, 0, 1, 500, [], 1, "u", []⟩

/-- Policy used in the C1 witness: minimum lewd level 2, bookmark max 100. -/
def c1pol : FilterPolicy :=
  ⟨false, some 2, some 6, [], [], none, some 100, none, true⟩

/-- Policy used in the C7 witness: filtering disabled, yet with an otherwise
maximally restrictive configuration. -/
def c7pol : FilterPolicy :=
  ⟨false, some 6, some 0, ["cat"], ["dog"], some 1000, some 0, some 0, false⟩

/-- Invisible item used in the C7 witness. -/
def c7ilInvisible : Illust :=
  ⟨11, 21, false, 1, 6, 5, [⟨"cat", none⟩], 1, "u", []⟩

/-- Visible item used in the C7 witness; it violates every disabled rule. -/
def c7ilVisible : Illust :=
  ⟨12, 22, true, 1, 6, 5, [⟨"cat", none⟩], 1, "u", []⟩

/-- Policy of the C8 counterexample: page bound 0, everything else permissive,
filtering enabled. -/
def c8pol : FilterPolicy :=
  ⟨false, some 0, some 6, [], [], none, none, some 0, true⟩

/-- Single-page item of the C8 counterexample: `page_count = 1` (exceeding the
bound 0) but, as for every single-page item, an empty `meta_pages` list. -/
def c8il : Illust :=
  ⟨1, 2, true, 0, 2, 0, [], 1, "u", []⟩

/-- Policy of the C8 witness: page bound 1. -/
def c8wpol : FilterPolicy :=
  ⟨false, some 0, some 6, [], [], none, none, some 1, true⟩

/-- Two-page item of the C8 witness. -/
def c8wil : Illust :=
  ⟨3, 4, true, 0, 2, 0, [], 2, "", ["u1", "u2"]⟩

/-- Item of the C9 witness: its only tag matches the forbidden tag "cat"
solely through its translated name. -/
def c9il : Illust :=
  ⟨30, 40, true, 0, 2, 0, [⟨"Neko", some "Cat"⟩], 1, "u", []⟩

/-- Policy of the C9 witness: "cat" forbidden, filtering enabled. -/
def c9pol : FilterPolicy :=
  ⟨false, some 0, some 6, ["cat"], [], none, none, none, true⟩

/-- Callable of the C6 witness that always raises a transient fault. -/
def c6transient : Nat → CallOutcome Nat := fun _ => .raiseTransient

/-- Callable of the C6 witness that raises a transient fault once and then
returns 42. -/
def c6eventual : Nat → CallOutcome Nat := fun k => if k = 0 then .raiseTransient else .retValue 42

/-- The 10000-page listing (every batch empty) of the C4 counterexample. -/
def c4pages : List (List Unit) := List.replicate 10000 []

/-- Listing used in the C5 witness: 3 pages holding 5 items. -/
def c5ps : List (List Nat) := [[0, 1], [2, 3], [4]]

/-- C2 witness state: item 5 fully mirrored (directory, marker, page file). -/
def c2fs : FS := ⟨[5], [5], [(5, 1)]⟩

/-- C2 witness unit: the single page of item 5. -/
def c2it : DownloadableImage := ⟨5, false, 1, "u"⟩

/-- C3 witness state: empty mirror. -/
def c3fs : FS := ⟨[], [], []⟩

/-- C3 witness unit: the two pages of item 7. -/
def c3items : List DownloadableImage := [⟨7, true, 1, "u1"⟩, ⟨7, true, 2, "u2"⟩]

/-- C3 witness fetch oracle: every fetch succeeds. -/
def c3fetchOk : Nat → Nat → Bool := fun _ _ => true

/-- Helper: when rule `k` fires and all earlier rules pass, `filter_illust`
reports rule `k`'s message. -/
lemma filter_firstRule (pol : FilterPolicy) (bl : List BlacklistEntry) (il : Illust)
    (k : Nat) (hsf : pol.should_filter = true) (h1 : 1 ≤ k) (h2 : k ≤ 10)
    (hk : (ruleMsg k pol bl il).isSome = true)
    (hnone : ∀ j, j < k → 1 ≤ j → ruleMsg j pol bl il = none) :
    filter_illust pol bl il = (true, ruleMsg k pol bl il) := by
  have e1 : 1 < k → rule_visible il = none := fun h => by
    simpa [ruleMsg] using hnone 1 h le_rfl
  have e2 : 2 < k → rule_r18 pol il = none := fun h => by
    simpa [ruleMsg] using hnone 2 h (by omega)
  have e3 : 3 < k → rule_lewd_min pol il = none := fun h => by
    simpa [ruleMsg] using hnone 3 h (by omega)
  have e4 : 4 < k → rule_lewd_max pol il = none := fun h => by
    simpa [ruleMsg] using hnone 4 h (by omega)
  have e5 : 5 < k → rule_filtered pol il = none := fun h => by
    simpa [ruleMsg] using hnone 5 h (by omega)
  have e6 : 6 < k → rule_required pol il = none := fun h => by
    simpa [ruleMsg] using hnone 6 h (by omega)
  have e7 : 7 < k → rule_bm_max pol il = none := fun h => by
    simpa [ruleMsg] using hnone 7 h (by omega)
  have e8 : 8 < k → rule_bm_min pol il = none := fun h => by
    simpa [ruleMsg] using hnone 8 h (by omega)
  have e9 : 9 < k → rule_pages pol il = none := fun h => by
    simpa [ruleMsg] using hnone 9 h (by omega)
  interval_cases k
  · obtain ⟨v, hv⟩ := Option.isSome_iff_exists.mp hk
    simp only [ruleMsg] at hv ⊢
    simp [filter_illust, hv]
  · obtain ⟨v, hv⟩ := Option.isSome_iff_exists.mp hk
    simp only [ruleMsg] at hv ⊢
    simp [filter_illust, hsf, e1 (by omega), hv]
  · obtain ⟨v, hv⟩ := Option.isSome_iff_exists.mp hk
    simp only [ruleMsg] at hv ⊢
    simp [filter_illust, hsf, e1 (by omega), e2 (by omega), hv]
  · obtain ⟨v, hv⟩ := Option.isSome_iff_exists.mp hk
    simp only [ruleMsg] at hv ⊢
    simp [filter_illust, hsf, e1 (by omega), e2 (by omega), e3 (by omega), hv]
  · obtain ⟨v, hv⟩ := Option.isSome_iff_exists.mp hk
    simp only [ruleMsg] at hv ⊢
    simp [filter_illust, hsf, e1 (by omega), e2 (by omega), e3 (by omega), e4 (by omega), hv]
  · obtain ⟨v, hv⟩ := Option.isSome_iff_exists.mp hk
    simp only [ruleMsg] at hv ⊢
    simp [filter_illust, hsf, e1 (by omega), e2 (by omega), e3 (by omega), e4 (by omega),
      e5 (by omega), hv]
  · obtain ⟨v, hv⟩ := Option.isSome_iff_exists.mp hk
    simp only [ruleMsg] at hv ⊢
    simp [filter_illust, hsf, e1 (by omega), e2 (by omega), e3 (by omega), e4 (by omega),
      e5 (by omega), e6 (by omega), hv]
  · obtain ⟨v, hv⟩ := Option.isSome_iff_exists.mp hk
    simp only [ruleMsg] at hv ⊢
    simp [filter_illust, hsf, e1 (by omega), e2 (by omega), e3 (by omega), e4 (by omega),
      e5 (by omega), e6 (by omega), e7 (by omega), hv]
  · obtain ⟨v, hv⟩ := Option.isSome_iff_exists.mp hk
    simp only [ruleMsg] at hv ⊢
    simp [filter_illust, hsf, e1 (by omega), e2 (by omega), e3 (by omega), e4 (by omega),
      e5 (by omega), e6 (by omega), e7 (by omega), e8 (by omega), hv]
  · obtain ⟨v, hv⟩ := Option.isSome_iff_exists.mp hk
    simp only [ruleMsg] at hv ⊢
    simp [filter_illust, hsf, e1 (by omega), e2 (by omega), e3 (by omega), e4 (by omega),
      e5 (by omega), e6 (by omega), e7 (by omega), e8 (by omega), e9 (by omega), hv]

/-- C1: for every item and fixed policy (with filtering enabled),
`filter_illust` evaluates the rejection rules as a short-circuiting ordered
chain in the priority order visibility > R-18 > maturity-below-min >
maturity-above-max > forbidden tags > required tags > bookmarks-above-max >
bookmarks-below-min > pages-above-max > blacklist: whenever rule `k` is
violated and no earlier rule is, the single reported reason is rule `k`'s. -/
theorem claim_c1_rejection_priority (pol : FilterPolicy) (bl : List BlacklistEntry)
    (il : Illust) (k : Nat) (hsf : pol.should_filter = true) (h1 : 1 ≤ k) (h2 : k ≤ 10)
    (hk : (ruleMsg k pol bl il).isSome = true)
    (hnone : ∀ j, j < k → 1 ≤ j → ruleMsg j pol bl il = none) :
    filter_illust pol bl il = (true, ruleMsg k pol bl il) :=
  filter_firstRule pol bl il k hsf h1 h2 hk hnone

/-- C1 witness: on an item violating rules 3 and 7, the reported reason is
rule 3's, the highest-priority violated rule. -/
theorem claim_c1_rejection_priority_witness :
    filter_illust c1pol [] c1il = (true, ruleMsg 3 c1pol [] c1il) ∧
      (ruleMsg 3 c1pol [] c1il).isSome = true ∧ (ruleMsg 7 c1pol [] c1il).isSome = true :=
  ⟨claim_c1_rejection_priority c1pol [] c1il 3 rfl (by decide) (by decide) (by decide)
      (by decide),
    by decide, by decide⟩

/-- C7: when the filtering-disabled flag is in effect (`should_filter` is
`False`), rules 2-10 are skipped entirely but rule 1 still applies: an
invisible item is rejected with the visibility reason, and every visible item
is accepted. -/
theorem claim_c7_filter_disabled (pol : FilterPolicy) (bl : List BlacklistEntry)
    (il : Illust) (hsf : pol.should_filter = false) :
    (il.visible = false →
        filter_illust pol bl il = (true, some "Illustration is not visible")) ∧
      (il.visible = true → filter_illust pol bl il = (false, none)) := by
  constructor <;> intro h <;> simp [filter_illust, rule_visible, hsf, h]

/-- C7 witness: with filtering disabled, the invisible item is still rejected
for visibility and the visible item is accepted despite violating the
disabled rules. -/
theorem claim_c7_filter_disabled_witness :
    filter_illust c7pol [] c7ilInvisible = (true, some "Illustration is not visible") ∧
      filter_illust c7pol [] c7ilVisible = (false, none) :=
  ⟨(claim_c7_filter_disabled c7pol [] c7ilInvisible rfl).1 rfl,
    (claim_c7_filter_disabled c7pol [] c7ilVisible rfl).2 rfl⟩

/-- C8 counterexample: a single-page item whose page count (1) exceeds the
policy's page bound (0) and which passes rules 1-8 is nevertheless accepted,
because the source compares `len(illust["meta_pages"])` (which is 0 for a
single-page item) against the bound, not the page count. -/
theorem claim_c8_counterexample :
    c8pol.max_pages = some 0 ∧ c8il.page_count = 1 ∧ 0 < c8il.page_count ∧
      ruleMsg 1 c8pol [] c8il = none ∧ ruleMsg 2 c8pol [] c8il = none ∧
      ruleMsg 3 c8pol [] c8il = none ∧ ruleMsg 4 c8pol [] c8il = none ∧
      ruleMsg 5 c8pol [] c8il = none ∧ ruleMsg 6 c8pol [] c8il = none ∧
      ruleMsg 7 c8pol [] c8il = none ∧ ruleMsg 8 c8pol [] c8il = none ∧
      filter_illust c8pol [] c8il = (false, none) := by
  decide

/-- C8 as amended: for every item passing rules 1-8 (filtering enabled), if
the policy sets a max-page-count bound and the length of the item's
`meta_pages` list exceeds it, the item is rejected with the numeric
page-count reason. For multi-page items that length equals the page count;
single-page items have an empty `meta_pages` list and are never rejected by
this rule. -/
theorem claim_c8_pages_rule (pol : FilterPolicy) (bl : List BlacklistEntry)
    (il : Illust) (m : Nat) (hsf : pol.should_filter = true)
    (hmp : pol.max_pages = some m) (hgt : m < il.meta_pages.length)
    (hpass : ∀ j, j < 9 → 1 ≤ j → ruleMsg j pol bl il = none) :
    filter_illust pol bl il =
      (true, some ("Illustration has too many pages (" ++
        toString il.meta_pages.length ++ " > " ++ toString m ++ ")")) := by
  have hk : (ruleMsg 9 pol bl il).isSome = true := by
    simp [ruleMsg, rule_pages, hmp, hgt]
  have h := filter_firstRule pol bl il 9 hsf (by omega) (by omega) hk hpass
  rw [h]
  simp [ruleMsg, rule_pages, hmp, hgt]

/-- C8 witness: a two-page item against a page bound of 1 is rejected with the
numeric page-count reason. -/
theorem claim_c8_pages_rule_witness :
    filter_illust c8wpol [] c8wil =
      (true, some ("Illustration has too many pages (" ++
        toString c8wil.meta_pages.length ++ " > " ++ toString 1 ++ ")")) :=
  claim_c8_pages_rule c8wpol [] c8wil 1 rfl rfl (by decide) (by decide)

/-- Helper: the tag value set of `filter_illust` consists of the lowercased
nonempty canonical names and the lowercased nonempty translated names. -/
lemma mem_illustTagSet (il : Illust) (s : String) :
    s ∈ illustTagSet il ↔
      ∃ td ∈ il.tags, (td.name ≠ "" ∧ s = strLower td.name) ∨
        ∃ t, td.translated_name = some t ∧ t ≠ "" ∧ s = strLower t := by
  simp only [illustTagSet, List.mem_dedup, List.mem_flatMap]
  constructor
  · rintro ⟨td, htd, hs⟩
    refine ⟨td, htd, ?_⟩
    simp only [tagValues, List.mem_map, List.mem_filter] at hs
    obtain ⟨x, ⟨hmem, hne⟩, rfl⟩ := hs
    have hne' : x ≠ "" := by simpa using hne
    cases h : td.translated_name with
    | none =>
      rw [h] at hmem
      simp only [List.mem_cons, List.not_mem_nil, or_false] at hmem
      exact Or.inl ⟨hmem ▸ hne', by rw [hmem]⟩
    | some t =>
      rw [h] at hmem
      simp only [List.mem_cons, List.not_mem_nil, or_false] at hmem
      rcases hmem with h1 | h1
      · exact Or.inl ⟨h1 ▸ hne', by rw [h1]⟩
      · exact Or.inr ⟨t, rfl, h1 ▸ hne', by rw [h1]⟩
  · rintro ⟨td, htd, h⟩
    refine ⟨td, htd, ?_⟩
    simp only [tagValues, List.mem_map, List.mem_filter]
    rcases h with ⟨hne, rfl⟩ | ⟨t, htr, hne, rfl⟩
    · exact ⟨td.name, ⟨List.mem_cons_self _ _, by simpa using hne⟩, rfl⟩
    · refine ⟨t, ⟨?_, by simpa using hne⟩, rfl⟩
      rw [htr]
      simp

/-- C9: the forbidden-tag, required-tag and blacklist-tag matching of
`filter_illust` runs over the lowercased values of every tag entry, canonical
name and translated name alike: the tag value set is characterized
accordingly; an item is rejected with the forbidden-tags reason when a
forbidden tag appears only as a translated name (given rules 1-4 pass); and a
required tag is satisfied by a translated-name match, so rule 6 passes. -/
theorem claim_c9_translated_tag_matching (il : Illust) (pol : FilterPolicy)
    (bl : List BlacklistEntry) :
    (∀ s, s ∈ illustTagSet il ↔
        ∃ td ∈ il.tags, (td.name ≠ "" ∧ s = strLower td.name) ∨
          ∃ t, td.translated_name = some t ∧ t ≠ "" ∧ s = strLower t) ∧
      (pol.should_filter = true →
        (∀ j, j < 5 → 1 ≤ j → ruleMsg j pol bl il = none) →
        ∀ td ∈ il.tags, ∀ t, td.translated_name = some t → t ≠ "" →
          strLower t ∈ pol.filtered_tags →
          filter_illust pol bl il = (true, rule_filtered pol il) ∧
            rule_filtered pol il ≠ none) ∧
      (∀ td ∈ il.tags, ∀ t, td.translated_name = some t → t ≠ "" →
        strLower t ∈ pol.required_tags → rule_required pol il = none) := by
  refine ⟨mem_illustTagSet il, ?_, ?_⟩
  · intro hsf hnone td htd t htr htne hmem
    have hs : strLower t ∈ illustTagSet il :=
      (mem_illustTagSet il _).mpr ⟨td, htd, Or.inr ⟨t, htr, htne, rfl⟩⟩
    have hfilne :
        (illustTagSet il).filter (fun x => pol.filtered_tags.contains x) ≠ [] := by
      intro hempty
      have hin : strLower t ∈
          (illustTagSet il).filter (fun x => pol.filtered_tags.contains x) :=
        List.mem_filter.mpr ⟨hs, by simpa using hmem⟩
      rw [hempty] at hin
      simp at hin
    have htagsne : pol.filtered_tags ≠ [] := by
      intro h
      rw [h] at hmem
      simp at hmem
    have h5 : (ruleMsg 5 pol bl il).isSome = true := by
      simp only [ruleMsg, rule_filtered]
      rw [if_pos]
      · rfl
      · simp only [Bool.and_eq_true, Bool.not_eq_true', List.isEmpty_eq_false]
        exact ⟨htagsne, hfilne⟩
    have hres := filter_firstRule pol bl il 5 hsf (by omega) (by omega) h5 hnone
    refine ⟨by simpa [ruleMsg] using hres, Option.ne_none_iff_isSome.mpr ?_⟩
    simpa [ruleMsg] using h5
  · intro td htd t htr htne hmem
    have hs : strLower t ∈ illustTagSet il :=
      (mem_illustTagSet il _).mpr ⟨td, htd, Or.inr ⟨t, htr, htne, rfl⟩⟩
    have hreqne :
        (illustTagSet il).filter (fun x => pol.required_tags.contains x) ≠ [] := by
      intro hempty
      have hin : strLower t ∈
          (illustTagSet il).filter (fun x => pol.required_tags.contains x) :=
        List.mem_filter.mpr ⟨hs, by simpa using hmem⟩
      rw [hempty] at hin
      simp at hin
    simp only [rule_required]
    rw [if_neg]
    simp only [Bool.and_eq_true, Bool.not_eq_true', List.isEmpty_eq_false,
      List.isEmpty_iff, not_and]
    intro _
    exact hreqne

/-- C9 witness: the item is rejected with the forbidden-tags reason although
"cat" occurs only as the lowercased translated name of its tag. -/
theorem claim_c9_translated_tag_matching_witness :
    filter_illust c9pol [] c9il = (true, rule_filtered c9pol c9il) ∧
      rule_filtered c9pol c9il ≠ none :=
  (claim_c9_translated_tag_matching c9il c9pol []).2.1 rfl (by decide)
    ⟨"Neko", some "Cat"⟩ (by decide) "Cat" rfl (by decide) (by decide)

/-- C6: a callable that raises a transient transport fault on every invocation
is invoked exactly 3 times by `retry_wrapper` and the call then fails with the
exhaustion error naming the callable; a callable that succeeds on attempt
`i ≤ 3` (after transient faults) is invoked exactly `i` times and its result
is returned. -/
theorem claim_c6_retry_exhaustion {α : Type} :
    (∀ (outcomes : Nat → CallOutcome α) (name : String),
        (∀ k, outcomes k = .raiseTransient) →
        retry_wrapper outcomes name =
          (.error ("Failed to run " ++ name ++ " 3 times"), 3)) ∧
      (∀ (outcomes : Nat → CallOutcome α) (name : String) (i : Nat) (v : α),
        1 ≤ i → i ≤ 3 → (∀ j, j < i - 1 → outcomes j = .raiseTransient) →
        outcomes (i - 1) = .retValue v →
        retry_wrapper outcomes name = (.value v, i)) := by
  constructor
  · intro outcomes name h
    simp [retry_wrapper, retryFrom, h]
  · intro outcomes name i v h1 h2 hj hv
    interval_cases i
    · simp at hv
      simp [retry_wrapper, retryFrom, hv]
    · have h0 := hj 0 (by omega)
      simp at hv
      simp [retry_wrapper, retryFrom, h0, hv]
    · have h0 := hj 0 (by omega)
      have hone := hj 1 (by omega)
      simp at hv
      simp [retry_wrapper, retryFrom, h0, hone, hv]

/-- C6 witness: the always-transient callable fails after exactly 3 calls with
the exhaustion message; the callable succeeding on attempt 2 is called exactly
twice and its value returned. -/
theorem claim_c6_retry_exhaustion_witness :
    retry_wrapper c6transient "cbl" =
        (.error ("Failed to run " ++ "cbl" ++ " 3 times"), 3) ∧
      retry_wrapper c6eventual "cbl" = (.value 42, 2) :=
  ⟨claim_c6_retry_exhaustion.1 c6transient "cbl" (fun _ => rfl),
    claim_c6_retry_exhaustion.2 c6eventual "cbl" 2 42 (by decide) (by decide)
      (by decide) rfl⟩

/-- Helper: flattening one more taken page appends that page's batch. -/
lemma flatten_take_succ (ps : List (List α)) (idx : Nat) (h : idx < ps.length) :
    (ps.take (idx + 1)).flatten = (ps.take idx).flatten ++ ps.getD idx [] := by
  rw [List.take_succ, List.flatten_append, List.getD_eq_getElem?_getD,
    List.getElem?_eq_getElem h]
  simp

/-- Helper: with no cap, the loop walks every remaining page of the listing
and returns all items with one call per page. -/
lemma depagLoop_all (ps : List (List α)) :
    ∀ (fuel idx : Nat), idx < ps.length → ps.length ≤ idx + fuel →
      depaginateLoop (fetchOf ps) none idx ((ps.take idx).flatten) idx fuel =
        (ps.flatten, ps.length) := by
  intro fuel
  induction fuel with
  | zero => intro idx h1 h2; omega
  | succ fuel ih =>
    intro idx h1 h2
    rw [depaginateLoop]
    simp only [fetchOf, capReached]
    rw [← flatten_take_succ ps idx h1]
    by_cases hnext : idx + 1 < ps.length
    · have hd : decide (idx + 1 < ps.length) = true := by simpa using hnext
      rw [if_pos hd]
      exact ih (idx + 1) hnext (by omega)
    · have hd : ¬ decide (idx + 1 < ps.length) = true := by simpa using hnext
      rw [if_neg hd]
      have hlen : idx + 1 = ps.length := by omega
      rw [hlen, List.take_length]
      simp

/-- C4 as amended: for every listing of `K` pages (with `1 ≤ K ≤ 9999`, the
hard iteration ceiling) totalling `T` items and ending with an end-of-stream
signal, with no item cap, `depaginate_download` returns exactly the `T` items
as the order-preserving concatenation of the page batches, issuing exactly
`K` listing calls. -/
theorem claim_c4_pagination_exhaustive (ps : List (List α)) (h1 : 1 ≤ ps.length)
    (h2 : ps.length ≤ 9999) :
    depaginate_download (fetchOf ps) none = (ps.flatten, ps.length) := by
  have h := depagLoop_all ps 9999 0 (by omega) (by omega)
  simpa [depaginate_download] using h

/-- C4 witness: a 2-page listing of 3 items is depaginated into the 3 items
in order, with exactly 2 listing calls. -/
theorem claim_c4_pagination_exhaustive_witness :
    depaginate_download (fetchOf [[1], [2, 3]]) none = ([1, 2, 3], 2) := by
  simpa using claim_c4_pagination_exhaustive [[1], [2, 3]] (by decide) (by decide)

/-- Helper: while every fetched page is empty with a non-null continuation and
the cap is not met on the empty accumulator, the loop runs until its fuel is
exhausted, one call per iteration. -/
lemma depagLoop_empty_pages (fetch : Nat → List α × Bool) (mi : Option Nat) :
    ∀ (fuel idx calls : Nat) (acc : List α),
      (∀ i, idx ≤ i → i < idx + fuel → fetch i = ([], true)) →
      capReached mi acc.length = false →
      depaginateLoop fetch mi idx acc calls fuel = (acc, calls + fuel) := by
  intro fuel
  induction fuel with
  | zero => intro idx calls acc h hc; rw [depaginateLoop]; simp
  | succ fuel ih =>
    intro idx calls acc h hc
    have h0 : fetch idx = ([], true) := h idx le_rfl (by omega)
    rw [depaginateLoop]
    simp only [h0, List.append_nil]
    rw [if_neg (by simp [hc]), if_pos trivial]
    rw [ih (idx + 1) (calls + 1) acc (fun i hi1 hi2 => h i (by omega) (by omega)) hc]
    congr 1
    omega

/-- C4 counterexample: a listing of `K = 10000` pages ending with an
end-of-stream signal, no cap set. The claim asserts exactly `K` listing
calls, but `depaginate_download` stops at the `range(0, 9999)` iteration
ceiling: it issues 9999 calls, not 10000. -/
theorem claim_c4_counterexample :
    c4pages.length = 10000 ∧
      depaginate_download (fetchOf c4pages) none = ([], 9999) ∧
      (depaginate_download (fetchOf c4pages) none).2 ≠ c4pages.length := by
  have hlen : c4pages.length = 10000 := by
    show (List.replicate 10000 ([] : List Unit)).length = 10000
    rw [List.length_replicate]
  have hf : ∀ i, 0 ≤ i → i < 0 + 9999 → fetchOf c4pages i = ([], true) := by
    intro i _ h2
    have hi : i < 10000 := by omega
    have e1 : c4pages.getD i [] = [] := by
      rw [List.getD_eq_getElem?_getD]
      have e : c4pages[i]? = some [] := by
        show (List.replicate 10000 ([] : List Unit))[i]? = some []
        rw [List.getElem?_replicate, if_pos hi]
      rw [e]
      rfl
    have e2 : decide (i + 1 < c4pages.length) = true := by
      rw [hlen]
      exact decide_eq_true (by omega)
    show (c4pages.getD i [], decide (i + 1 < c4pages.length)) = ([], true)
    rw [e1, e2]
  have h := depagLoop_empty_pages (fetchOf c4pages) none 9999 0 0 [] hf rfl
  refine ⟨hlen, ?_, ?_⟩
  · simpa [depaginate_download] using h
  · rw [hlen]
    have h2 : (depaginate_download (fetchOf c4pages) none).2 = 9999 := by
      simpa [depaginate_download] using congrArg Prod.snd h
    omega

/-- Helper: invariant of the capped paginator loop started at page `idx` with
`to_process = (ps.take idx).flatten` and `idx` calls made so far: the result
is always the flattening of the pages called; calls grow by at most the fuel;
every call beyond the first of the run was issued with the accumulated count
below the cap; the loop never walks past the end of the listing; and it stops
only for the cap, the end of the stream, or fuel exhaustion. -/
lemma depagLoop_cap_spec (ps : List (List α)) (M : Nat) :
    ∀ (fuel idx : Nat) (res : List α) (calls : Nat),
      depaginateLoop (fetchOf ps) (some M) idx ((ps.take idx).flatten) idx fuel =
        (res, calls) →
      res = (ps.take calls).flatten ∧ idx ≤ calls ∧ calls ≤ idx + fuel ∧
        (∀ j, idx ≤ j → j + 1 < calls → ((ps.take (j + 1)).flatten).length < M) ∧
        (idx < ps.length → calls ≤ ps.length) ∧
        (M ≤ ((ps.take calls).flatten).length ∨ ps.length ≤ calls ∨
          calls = idx + fuel) := by
  intro fuel
  induction fuel with
  | zero =>
    intro idx res calls h
    rw [depaginateLoop] at h
    injection h with h1 h2
    subst h1
    subst h2
    refine ⟨rfl, le_rfl, by omega, ?_, ?_, Or.inr (Or.inr (by omega))⟩
    · intro j hj1 hj2
      omega
    · intro _
      omega
  | succ fuel ih =>
    intro idx res calls h
    rw [depaginateLoop] at h
    simp only [fetchOf] at h
    by_cases hlt : idx < ps.length
    · rw [← flatten_take_succ ps idx hlt] at h
      by_cases hcap : M ≤ ((ps.take (idx + 1)).flatten).length
      · have hcond : capReached (some M) ((ps.take (idx + 1)).flatten).length = true := by
          simp only [capReached, decide_eq_true_eq]
          exact hcap
        rw [if_pos hcond] at h
        injection h with h1 h2
        subst h1
        subst h2
        refine ⟨rfl, by omega, by omega, ?_, fun _ => by omega, Or.inl hcap⟩
        intro j hj1 hj2
        omega
      · have hcond : ¬ capReached (some M) ((ps.take (idx + 1)).flatten).length = true := by
          simp only [capReached, decide_eq_true_eq]
          exact hcap
        rw [if_neg hcond] at h
        by_cases hnext : idx + 1 < ps.length
        · rw [if_pos (decide_eq_true hnext)] at h
          obtain ⟨ha, hb, hc', hd, he, hf'⟩ := ih (idx + 1) res calls h
          refine ⟨ha, by omega, by omega, ?_, fun _ => he hnext, ?_⟩
          · intro j hj1 hj2
            rcases Nat.lt_or_ge j (idx + 1) with hj | hj
            · have hj' : j = idx := by omega
              subst hj'
              omega
            · exact hd j hj hj2
          · rcases hf' with h' | h' | h'
            · exact Or.inl h'
            · exact Or.inr (Or.inl h')
            · exact Or.inr (Or.inr (by omega))
        · have hcond2 : ¬ decide (idx + 1 < ps.length) = true := by
            simp [hnext]
          rw [if_neg hcond2] at h
          injection h with h1 h2
          subst h1
          subst h2
          refine ⟨rfl, by omega, by omega, ?_, fun _ => by omega,
            Or.inr (Or.inl (by omega))⟩
          intro j hj1 hj2
          omega
    · have hge : ps.length ≤ idx := by omega
      have hgetD : ps.getD idx [] = [] := by
        rw [List.getD_eq_getElem?_getD, List.getElem?_eq_none_iff.mpr hge]
        rfl
      rw [hgetD, List.append_nil] at h
      have htk : ∀ n, idx ≤ n → ps.take n = ps := fun n hn =>
        List.take_of_length_le (by omega)
      by_cases hcap : M ≤ ((ps.take idx).flatten).length
      · have hcond : capReached (some M) ((ps.take idx).flatten).length = true := by
          simp only [capReached, decide_eq_true_eq]
          exact hcap
        rw [if_pos hcond] at h
        injection h with h1 h2
        subst h1
        subst h2
        refine ⟨?_, by omega, by omega, ?_, fun h' => by omega, Or.inl ?_⟩
        · rw [htk idx le_rfl, htk (idx + 1) (by omega)]
        · intro j hj1 hj2
          omega
        · rw [htk (idx + 1) (by omega)]
          rw [htk idx le_rfl] at hcap
          exact hcap
      · have hcond : ¬ capReached (some M) ((ps.take idx).flatten).length = true := by
          simp only [capReached, decide_eq_true_eq]
          exact hcap
        rw [if_neg hcond] at h
        have hcond2 : ¬ decide (idx + 1 < ps.length) = true := by
          simp only [decide_eq_true_eq]
          omega
        rw [if_neg hcond2] at h
        injection h with h1 h2
        subst h1
        subst h2
        refine ⟨?_, by omega, by omega, ?_, fun h' => by omega,
          Or.inr (Or.inl (by omega))⟩
        · rw [htk idx le_rfl, htk (idx + 1) (by omega)]
        · intro j hj1 hj2
          omega

/-- C5: for every listing and cap `M`: the paginator issues at most the hard
ceiling of 9999 page calls; it never issues another listing call once the
accumulated item count has reached or exceeded `M` (every call past the first
was issued with strictly fewer than `M` items accumulated); and whenever `M`
is smaller than the listing's total item count (the ceiling clause aside, i.e.
for listings of at most 9999 pages) it stops only after accumulating at least
`M` items. -/
theorem claim_c5_cap_enforcement (ps : List (List α)) (M : Nat) :
    (depaginate_download (fetchOf ps) (some M)).2 ≤ 9999 ∧
      (∀ j, j + 1 < (depaginate_download (fetchOf ps) (some M)).2 →
        ((ps.take (j + 1)).flatten).length < M) ∧
      (ps.length ≤ 9999 → M < ps.flatten.length →
        M ≤ (depaginate_download (fetchOf ps) (some M)).1.length) := by
  rcases hres : depaginate_download (fetchOf ps) (some M) with ⟨res, calls⟩
  have h0 : depaginateLoop (fetchOf ps) (some M) 0 ((ps.take 0).flatten) 0 9999 =
      (res, calls) := hres
  obtain ⟨ha, hb, hc', hd, he, hf'⟩ := depagLoop_cap_spec ps M 9999 0 res calls h0
  dsimp only
  refine ⟨by omega, ?_, ?_⟩
  · intro j hj
    exact hd j (by omega) hj
  · intro hK hT
    rcases hf' with h' | h' | h'
    · rw [ha]
      exact h'
    · have hflat : res = ps.flatten := by
        rw [ha, List.take_of_length_le h']
      rw [hflat]
      omega
    · have hpos : 0 < ps.length := by
        rcases Nat.eq_zero_or_pos ps.length with h0' | h0'
        · exfalso
          have hnil : ps = [] := List.eq_nil_of_length_eq_zero h0'
          rw [hnil] at hT
          simp at hT
        · exact h0'
      have hle : calls ≤ ps.length := he hpos
      have hceq : calls = ps.length := by omega
      have hflat : res = ps.flatten := by
        rw [ha, hceq, List.take_length]
      rw [hflat]
      omega

/-- C5 witness: with cap 3 on the 5-item listing, the paginator stays within
the ceiling and accumulates at least 3 items. -/
theorem claim_c5_cap_enforcement_witness :
    (depaginate_download (fetchOf c5ps) (some 3)).2 ≤ 9999 ∧
      3 ≤ (depaginate_download (fetchOf c5ps) (some 3)).1.length :=
  ⟨(claim_c5_cap_enforcement c5ps 3).1,
    (claim_c5_cap_enforcement c5ps 3).2.2 (by decide) (by decide)⟩

/-- Helper: when the unit's first item already has its marker, the loop stops
at the short-circuit `return` after the `mkdir`, before any fetch. -/
lemma dlLoop_marker (fetchOk : Nat → Nat → Bool) (fs : FS) (it : DownloadableImage)
    (rest : List DownloadableImage) (hm : it.id ∈ fs.markers) :
    dlLoop fetchOk fs (it :: rest) =
      (.earlyReturn, { fs with dirs := mkdirDirs it.id fs.dirs }, [Ev.mkdir it.id]) := by
  rw [dlLoop]
  dsimp only
  rw [if_pos hm]

/-- C2: on a unit whose completion marker already exists before processing
starts (its directory being present alongside the marker), `download_page`
returns normally having issued zero download requests and leaves the mirror
state unchanged: the marker check precedes any fetch of page 1. -/
theorem claim_c2_idempotent_skip (fetchOk : Nat → Nat → Bool) (fs : FS)
    (it : DownloadableImage) (rest : List DownloadableImage)
    (hm : it.id ∈ fs.markers) (hd : it.id ∈ fs.dirs) :
    download_page fetchOk fs (it :: rest) = (.ok, fs, [Ev.mkdir it.id]) ∧
      countFetches (download_page fetchOk fs (it :: rest)).2.2 = 0 := by
  have hdirs : mkdirDirs it.id fs.dirs = fs.dirs := by
    simp [mkdirDirs, hd]
  have hfs : ({ fs with dirs := mkdirDirs it.id fs.dirs } : FS) = fs := by
    rw [hdirs]
  have h : download_page fetchOk fs (it :: rest) = (.ok, fs, [Ev.mkdir it.id]) := by
    rw [download_page, dlLoop_marker fetchOk fs it rest hm, hfs]
  refine ⟨h, ?_⟩
  rw [h]
  rfl

/-- C10: invoked on an empty unit, `download_page` performs no fetch and
writes no marker, but does not return normally: the loop body never runs and
the `items[0]` indexing at the marker-write step raises `IndexError`. -/
theorem claim_c10_empty_unit (fetchOk : Nat → Nat → Bool) (fs : FS) :
    download_page fetchOk fs [] = (.err, fs, []) := rfl

/-- C2 witness: re-running the unit of item 5 with a fetch oracle that would
fail every request is still a no-op issuing zero requests. -/
theorem claim_c2_idempotent_skip_witness :
    download_page (fun _ _ => false) c2fs [c2it] = (.ok, c2fs, [Ev.mkdir c2it.id]) ∧
      countFetches (download_page (fun _ _ => false) c2fs [c2it]).2.2 = 0 :=
  claim_c2_idempotent_skip (fun _ _ => false) c2fs c2it [] (by decide) (by decide)

/-- Helper: a log of mkdir/fetch pairs contains no marker write. -/
lemma countMarkerWrites_pairs (n : Nat) :
    ∀ l : List DownloadableImage,
      countMarkerWrites (l.flatMap (fun it => [Ev.mkdir n, Ev.fetch n it.page_num])) = 0 := by
  intro l
  induction l with
  | nil => rfl
  | cons a l ih =>
    simp only [List.flatMap_cons, countMarkerWrites, List.countP_append, List.countP_cons,
      List.countP_nil] at ih ⊢
    simpa using ih

/-- Helper: on an all-success unit with a single item id `n` and no prior
marker, the loop completes, fetching every page in order. -/
lemma dlLoop_success (fetchOk : Nat → Nat → Bool) (n : Nat) :
    ∀ (items : List DownloadableImage) (fs : FS),
      (∀ it ∈ items, it.id = n) → n ∉ fs.markers →
      (∀ it ∈ items, fetchOk n it.page_num = true) →
      (dlLoop fetchOk fs items).1 = .completed ∧
        (dlLoop fetchOk fs items).2.1.markers = fs.markers ∧
        (dlLoop fetchOk fs items).2.1.files =
          fs.files ++ items.map (fun it => (n, it.page_num)) ∧
        (dlLoop fetchOk fs items).2.2 =
          items.flatMap (fun it => [Ev.mkdir n, Ev.fetch n it.page_num]) := by
  intro items
  induction items with
  | nil =>
    intro fs hall hm hok
    refine ⟨rfl, rfl, ?_, rfl⟩
    simp [dlLoop]
  | cons item rest ih =>
    intro fs hall hm hok
    have hid : item.id = n := hall item (List.mem_cons_self _ _)
    have hnotm : ¬ item.id ∈ fs.markers := by
      rw [hid]
      exact hm
    have hfok : fetchOk item.id item.page_num = true := by
      rw [hid]
      exact hok item (List.mem_cons_self _ _)
    rw [dlLoop]
    dsimp only
    rw [if_neg hnotm, if_pos hfok]
    set fs2 : FS :=
      { fs with dirs := mkdirDirs item.id fs.dirs,
                files := fs.files ++ [(item.id, item.page_num)] } with hfs2
    obtain ⟨h1, h2, h3, h4⟩ := ih fs2 (fun it hit => hall it (List.mem_cons_of_mem _ hit))
      (by simpa [hfs2] using hm) (fun it hit => hok it (List.mem_cons_of_mem _ hit))
    refine ⟨h1, h2, ?_, ?_⟩
    · rw [h3]
      simp [hfs2, hid, List.append_assoc]
    · rw [h4, hid]
      simp [List.flatMap_cons]

/-- Helper: if the pages before `bad` fetch fine but `bad`'s fetch exhausts
its retries, the loop fails at `bad`: the pages after it are not touched, the
earlier pages' files remain, and no marker is recorded. -/
lemma dlLoop_failure (fetchOk : Nat → Nat → Bool) (n : Nat) :
    ∀ (pre : List DownloadableImage) (bad : DownloadableImage)
      (post : List DownloadableImage) (fs : FS),
      (∀ it ∈ pre, it.id = n) → bad.id = n → n ∉ fs.markers →
      (∀ it ∈ pre, fetchOk n it.page_num = true) → fetchOk n bad.page_num = false →
      (dlLoop fetchOk fs (pre ++ bad :: post)).1 = .failed ∧
        (dlLoop fetchOk fs (pre ++ bad :: post)).2.1.markers = fs.markers ∧
        (dlLoop fetchOk fs (pre ++ bad :: post)).2.1.files =
          fs.files ++ pre.map (fun it => (n, it.page_num)) ∧
        (dlLoop fetchOk fs (pre ++ bad :: post)).2.2 =
          pre.flatMap (fun it => [Ev.mkdir n, Ev.fetch n it.page_num]) ++
            [Ev.mkdir n, Ev.fetchFail n bad.page_num] := by
  intro pre
  induction pre with
  | nil =>
    intro bad post fs hall hbad hm hok hfail
    have hnotm : ¬ bad.id ∈ fs.markers := by
      rw [hbad]
      exact hm
    have hfok : fetchOk bad.id bad.page_num = false := by
      rw [hbad]
      exact hfail
    rw [List.nil_append, dlLoop]
    dsimp only
    have hcond : ¬ fetchOk bad.id bad.page_num = true := by
      rw [hfok]
      simp
    rw [if_neg hnotm, if_neg hcond]
    refine ⟨rfl, rfl, ?_, ?_⟩
    · simp
    · rw [hbad]
      simp
  | cons item rest ih =>
    intro bad post fs hall hbad hm hok hfail
    have hid : item.id = n := hall item (List.mem_cons_self _ _)
    have hnotm : ¬ item.id ∈ fs.markers := by
      rw [hid]
      exact hm
    have hfok : fetchOk item.id item.page_num = true := by
      rw [hid]
      exact hok item (List.mem_cons_self _ _)
    rw [List.cons_append, dlLoop]
    dsimp only
    rw [if_neg hnotm, if_pos hfok]
    set fs2 : FS :=
      { fs with dirs := mkdirDirs item.id fs.dirs,
                files := fs.files ++ [(item.id, item.page_num)] } with hfs2
    obtain ⟨h1, h2, h3, h4⟩ := ih bad post fs2
      (fun it hit => hall it (List.mem_cons_of_mem _ hit)) hbad
      (by simpa [hfs2] using hm)
      (fun it hit => hok it (List.mem_cons_of_mem _ hit)) hfail
    refine ⟨h1, h2, ?_, ?_⟩
    · rw [h3]
      simp [hfs2, hid, List.append_assoc]
    · rw [h4, hid]
      simp [List.flatMap_cons]

/-- C3: on a unit of pages of item `n` with no prior marker: if every page
fetch succeeds, `download_page` returns normally, writes the completion
marker exactly once, and writes it after all the page fetches; if some page's
fetch fails after retries, the call raises, the remaining pages are not
fetched, no marker write happens, no marker exists afterwards (the item stays
incomplete), while the files of the earlier pages remain on disk. -/
theorem claim_c3_marker_atomicity (fetchOk : Nat → Nat → Bool) (fs : FS) (n : Nat)
    (items : List DownloadableImage) (hall : ∀ it ∈ items, it.id = n)
    (hm : n ∉ fs.markers) :
    ((∀ it ∈ items, fetchOk n it.page_num = true) → items ≠ [] →
      (download_page fetchOk fs items).1 = .ok ∧
        countMarkerWrites (download_page fetchOk fs items).2.2 = 1 ∧
        (download_page fetchOk fs items).2.1.markers = fs.markers ++ [n] ∧
        (download_page fetchOk fs items).2.2 =
          items.flatMap (fun it => [Ev.mkdir n, Ev.fetch n it.page_num]) ++
            [Ev.writeMarker n]) ∧
      (∀ pre bad post, items = pre ++ bad :: post →
        (∀ it ∈ pre, fetchOk n it.page_num = true) →
        fetchOk n bad.page_num = false →
        (download_page fetchOk fs items).1 = .err ∧
          (download_page fetchOk fs items).2.1.markers = fs.markers ∧
          n ∉ (download_page fetchOk fs items).2.1.markers ∧
          countMarkerWrites (download_page fetchOk fs items).2.2 = 0 ∧
          (download_page fetchOk fs items).2.1.files =
            fs.files ++ pre.map (fun it => (n, it.page_num)) ∧
          (download_page fetchOk fs items).2.2 =
            pre.flatMap (fun it => [Ev.mkdir n, Ev.fetch n it.page_num]) ++
              [Ev.mkdir n, Ev.fetchFail n bad.page_num]) := by
  constructor
  · intro hok hne
    rcases items with _ | ⟨i0, tl⟩
    · exact absurd rfl hne
    · have hi0 : i0.id = n := hall i0 (List.mem_cons_self _ _)
      obtain ⟨h1, h2, h3, h4⟩ := dlLoop_success fetchOk n (i0 :: tl) fs hall hm hok
      rcases hdl : dlLoop fetchOk fs (i0 :: tl) with ⟨lr, fs', log⟩
      rw [hdl] at h1 h2 h3 h4
      dsimp only at h1 h2 h3 h4
      subst h1
      rw [download_page, hdl]
      dsimp only
      have hp := countMarkerWrites_pairs n (i0 :: tl)
      refine ⟨rfl, ?_, ?_, ?_⟩
      · rw [h4, hi0]
        simp only [countMarkerWrites, List.countP_append] at hp ⊢
        rw [hp]
        rfl
      · rw [h2, hi0]
      · rw [h4, hi0]
  · intro pre bad post heq hpre hbadf
    subst heq
    have hallpre : ∀ it ∈ pre, it.id = n := fun it hit => hall it (by simp [hit])
    have hbadid : bad.id = n := hall bad (by simp)
    obtain ⟨h1, h2, h3, h4⟩ :=
      dlLoop_failure fetchOk n pre bad post fs hallpre hbadid hm hpre hbadf
    rcases hdl : dlLoop fetchOk fs (pre ++ bad :: post) with ⟨lr, fs', log⟩
    rw [hdl] at h1 h2 h3 h4
    dsimp only at h1 h2 h3 h4
    subst h1
    rw [download_page, hdl]
    dsimp only
    have hp := countMarkerWrites_pairs n pre
    refine ⟨rfl, h2, ?_, ?_, h3, h4⟩
    · rw [h2]
      exact hm
    · rw [h4]
      simp only [countMarkerWrites, List.countP_append] at hp ⊢
      rw [hp]
      rfl

/-- C3 witness: downloading the two pages of item 7 into an empty mirror
fetches both pages and then writes the marker exactly once, at the end. -/
theorem claim_c3_marker_atomicity_witness :
    (download_page c3fetchOk c3fs c3items).1 = .ok ∧
      countMarkerWrites (download_page c3fetchOk c3fs c3items).2.2 = 1 ∧
      (download_page c3fetchOk c3fs c3items).2.1.markers = c3fs.markers ++ [7] ∧
      (download_page c3fetchOk c3fs c3items).2.2 =
        c3items.flatMap (fun it => [Ev.mkdir 7, Ev.fetch 7 it.page_num]) ++
          [Ev.writeMarker 7] :=
  (claim_c3_marker_atomicity c3fetchOk c3fs 7 c3items (by decide) (by decide)).1
    (by decide) (by decide)

